import Mathlib

/-!
Shallow embedding of the QUIC-like packet framing layer (`src/packet.rs`):
the `Header` parse/serialize pair, the packet-number codec, header
protection (`decrypt_pkt_num`) and the per-level `PktNumSpace`.

Modelling conventions:
* machine integers (`u8`/`u32`/`u64`/`usize`) are `Nat` with explicit
  `% 2^w` where wrap-around can occur (release-mode two's-complement
  wrapping semantics for arithmetic);
* operations that abort the process (explicit unsupported-feature aborts,
  out-of-bounds slice indexing) are modelled by the `RustResult.panicked`
  outcome, distinct from returned errors;
* the externally-provided collaborators (byte cursor, AEAD capability,
  randomness, range set, in-flight ledger, stream) are modelled from the
  specification's contracts, as they are out of scope of the source file.
-/

/-- Error taxonomy. Modelled from the spec: `InvalidPacket` for malformed or
unsupported field values, `BufferTooShort` for cursor under-run (the enum
itself lives outside the packet module). -/
inductive Error where
  | InvalidPacket : Error
  | BufferTooShort : Error
deriving DecidableEq

deriving instance DecidableEq for Except

/-- Outcome of a call that can return a value, return an error, or abort the
process (Rust `panic`). -/
inductive RustResult (α : Type) where
  | ok : α → RustResult α
  | err : Error → RustResult α
  | panicked : RustResult α
deriving DecidableEq

/-- `packet::Type`. (`Type` is reserved in Lean, hence the longer name.) -/
inductive PacketType where
  | Initial
  | Retry
  | Handshake
  | ZeroRTT
  | VersionNegotiation
  | Application
deriving DecidableEq

def FORM_BIT : Nat := 0x80
def KEY_PHASE_BIT : Nat := 0x40
def DEMUX_BIT : Nat := 0x08
def TYPE_MASK : Nat := 0x7f
def MAX_CID_LEN : Nat := 18

/-- `usize` subtraction with release-mode wrap-around semantics. -/
def usize_sub (a b : Nat) : Nat := (a + (2 ^ 64 - b % 2 ^ 64)) % 2 ^ 64

/-- Bitwise `u8` complement (`!x` on a `u8`). -/
def u8_not (x : Nat) : Nat := 0xff ^^^ x

/-- Modelled from the spec: the bounds-checked forward byte cursor
(`octets::Bytes`), a read/write window over a byte buffer with an offset. -/
structure Bytes where
  data : List Nat
  off : Nat
deriving DecidableEq

namespace Bytes

/-- Modelled from the spec: remaining capacity of the cursor. -/
def cap (b : Bytes) : Nat := b.data.length - b.off

/-- Modelled from the spec: read `n` bytes, advancing the cursor; errors on
short buffers. -/
def get_bytes (n : Nat) (b : Bytes) : Except Error (List Nat × Bytes) :=
  if b.off + n ≤ b.data.length then
    .ok ((b.data.drop b.off).take n, ⟨b.data, b.off + n⟩)
  else
    .error Error.BufferTooShort

/-- Modelled from the spec: peek `n` bytes without consuming the cursor. -/
def peek_bytes (n : Nat) (b : Bytes) : Except Error (List Nat × Bytes) :=
  if b.off + n ≤ b.data.length then
    .ok ((b.data.drop b.off).take n, b)
  else
    .error Error.BufferTooShort

/-- Modelled from the spec: read one byte. -/
def get_u8 (b : Bytes) : Except Error (Nat × Bytes) :=
  match get_bytes 1 b with
  | .error e => .error e
  | .ok (l, b) => .ok (l.headD 0, b)

/-- Modelled from the spec: read a big-endian 16-bit value. -/
def get_u16 (b : Bytes) : Except Error (Nat × Bytes) :=
  match get_bytes 2 b with
  | .error e => .error e
  | .ok (l, b) => .ok (l.getD 0 0 * 256 + l.getD 1 0, b)

/-- Modelled from the spec: read a big-endian 32-bit value. -/
def get_u32 (b : Bytes) : Except Error (Nat × Bytes) :=
  match get_bytes 4 b with
  | .error e => .error e
  | .ok (l, b) =>
      .ok (l.getD 0 0 * 16777216 + l.getD 1 0 * 65536 + l.getD 2 0 * 256 + l.getD 3 0, b)

/-- Modelled from the spec: read a QUIC variable-length integer (the top two
bits of the first byte select a total width of 1, 2, 4 or 8 bytes). -/
def get_varint (b : Bytes) : Except Error (Nat × Bytes) :=
  match get_u8 b with
  | .error e => .error e
  | .ok (first, b) =>
    match get_bytes (1 <<< (first >>> 6) - 1) b with
    | .error e => .error e
    | .ok (l, b) => .ok (l.foldl (fun acc x => acc * 256 + x) (first &&& 0x3f), b)

/-- Modelled from the spec: read a varint length, then that many bytes. -/
def get_bytes_with_varint_length (b : Bytes) : Except Error (List Nat × Bytes) :=
  match get_varint b with
  | .error e => .error e
  | .ok (n, b) =>
    match get_bytes n b with
    | .error e => .error e
    | .ok (l, b) => .ok (l, b)

/-- Modelled from the spec: write raw bytes at the cursor, advancing it;
errors when the buffer lacks room. -/
def put_bytes (v : List Nat) (b : Bytes) : Except Error Bytes :=
  if b.off + v.length ≤ b.data.length then
    .ok ⟨b.data.take b.off ++ v ++ b.data.drop (b.off + v.length), b.off + v.length⟩
  else
    .error Error.BufferTooShort

/-- Modelled from the spec: write one byte. -/
def put_u8 (v : Nat) (b : Bytes) : Except Error Bytes := put_bytes [v] b

/-- Modelled from the spec: write a big-endian 32-bit value. -/
def put_u32 (v : Nat) (b : Bytes) : Except Error Bytes :=
  put_bytes [(v >>> 24) % 256, (v >>> 16) % 256, (v >>> 8) % 256, v % 256] b

/-- Modelled from the spec: write a QUIC variable-length integer. -/
def put_varint (v : Nat) (b : Bytes) : Except Error Bytes :=
  if v < 64 then
    put_bytes [v] b
  else if v < 16384 then
    put_bytes [0x40 ||| (v >>> 8), v % 256] b
  else if v < 1073741824 then
    put_bytes [0x80 ||| (v >>> 24), (v >>> 16) % 256, (v >>> 8) % 256, v % 256] b
  else
    put_bytes [0xc0 ||| ((v >>> 56) % 256), (v >>> 48) % 256, (v >>> 40) % 256,
               (v >>> 32) % 256, (v >>> 24) % 256, (v >>> 16) % 256, (v >>> 8) % 256,
               v % 256] b

end Bytes

/-- `packet::Header`. -/
structure Header where
  ty : PacketType
  version : Nat
  flags : Nat
  dcid : List Nat
  scid : List Nat
  token : Option (List Nat)
  versions : Option (List Nat)
deriving DecidableEq

namespace Header

/-- `Header::is_long`. -/
def is_long (b : Nat) : Bool := b &&& FORM_BIT != 0

/-- The Version Negotiation tail loop of `Header::from_bytes`:
`while b.cap() > 0 { list.push(b.get_u32()?); }`. The fuel argument is
instantiated with `b.cap`, which bounds the number of iterations (each
successful iteration consumes four bytes of capacity). -/
def read_versions : Nat → Bytes → Except Error (List Nat × Bytes)
  | 0, b => .ok ([], b)
  | fuel + 1, b =>
    if 0 < b.cap then
      match b.get_u32 with
      | .error e => .error e
      | .ok (v, b) =>
        match read_versions fuel b with
        | .error e => .error e
        | .ok (vs, b) => .ok (v :: vs, b)
    else
      .ok ([], b)

/-- `Header::from_bytes`. -/
def from_bytes (b : Bytes) (dcil : Nat) : RustResult (Header × Bytes) :=
  match b.get_u8 with
  | .error e => .err e
  | .ok (first, b) =>
    if ¬ is_long first then
      -- Decode short header.
      match b.get_bytes dcil with
      | .error e => .err e
      | .ok (dcid, b) =>
        .ok ({ ty := PacketType.Application, flags := first &&& FORM_BIT, version := 0,
               dcid := dcid, scid := [], token := none, versions := none }, b)
    else
      -- Decode long header.
      match b.get_u32 with
      | .error e => .err e
      | .ok (version, b) =>
        match (if version = 0 then .ok PacketType.VersionNegotiation
               else match first &&& TYPE_MASK with
                    | 0x7f => .ok PacketType.Initial
                    | 0x7e => .ok PacketType.Retry
                    | 0x7d => .ok PacketType.Handshake
                    | 0x7c => .ok PacketType.ZeroRTT
                    | _ => .error Error.InvalidPacket : Except Error PacketType) with
        | .error e => .err e
        | .ok ty =>
          match b.get_u8 with
          | .error _ => .err Error.BufferTooShort
          | .ok (v, b) =>
            let dcil0 := v >>> 4
            let scil0 := v &&& 0xf
            if MAX_CID_LEN < dcil0 ∨ MAX_CID_LEN < scil0 then
              .err Error.InvalidPacket
            else
              let dcil1 := if 0 < dcil0 then dcil0 + 3 else dcil0
              let scil1 := if 0 < scil0 then scil0 + 3 else scil0
              match b.get_bytes dcil1 with
              | .error e => .err e
              | .ok (dcid, b) =>
                match b.get_bytes scil1 with
                | .error e => .err e
                | .ok (scid, b) =>
                  match ty with
                  | PacketType.Initial =>
                    -- Only Initial packet have a token.
                    match b.get_bytes_with_varint_length with
                    | .error e => .err e
                    | .ok (token, b) =>
                      .ok ({ ty := ty, flags := first &&& FORM_BIT, version := version,
                             dcid := dcid, scid := scid, token := some token,
                             versions := none }, b)
                  | PacketType.Retry =>
                    -- `panic!("Retry not supported")`
                    .panicked
                  | PacketType.VersionNegotiation =>
                    match read_versions b.cap b with
                    | .error e => .err e
                    | .ok (list, b) =>
                      .ok ({ ty := ty, flags := first &&& FORM_BIT, version := version,
                             dcid := dcid, scid := scid, token := none,
                             versions := some list }, b)
                  | _ =>
                    .ok ({ ty := ty, flags := first &&& FORM_BIT, version := version,
                           dcid := dcid, scid := scid, token := none,
                           versions := none }, b)

/-- The first octet emitted for a short header, built from the random base
byte `r` exactly as `Header::to_bytes` does: clear the form bit, clear the
key-phase bit, set `0x20` and `0x10`, clear the demultiplexing bit. -/
def short_first (r : Nat) : Nat :=
  ((((r &&& u8_not FORM_BIT) &&& u8_not KEY_PHASE_BIT) ||| 0x20) ||| 0x10) &&& u8_not DEMUX_BIT

/-- `Header::to_bytes`. The random byte consumed by the short-header path is
passed in explicitly as `r` (the source draws it from a global randomness
source, modelled here as a parameter). -/
def to_bytes (hdr : Header) (r : Nat) (out : Bytes) : Except Error Bytes :=
  -- Encode short header.
  if hdr.ty = PacketType.Application then
    match out.put_u8 (short_first r) with
    | .error e => .error e
    | .ok out => out.put_bytes hdr.dcid
  else
    -- Encode long header.
    match (match hdr.ty with
           | PacketType.Initial => .ok 0x7f
           | PacketType.Retry => .ok 0x7e
           | PacketType.Handshake => .ok 0x7d
           | PacketType.ZeroRTT => .ok 0x7c
           | _ => .error Error.InvalidPacket : Except Error Nat) with
    | .error e => .error e
    | .ok ty =>
      let first := FORM_BIT ||| ty
      match out.put_u8 first with
      | .error e => .error e
      | .ok out =>
        match out.put_u32 hdr.version with
        | .error e => .error e
        | .ok out =>
          let cil : Nat :=
            (if hdr.dcid.length ≠ 0 then ((usize_sub hdr.dcid.length 3 % 256) <<< 4) % 256
             else 0) |||
            (if hdr.scid.length ≠ 0 then usize_sub hdr.scid.length 3 % 256 &&& 0xf
             else 0)
          match out.put_u8 cil with
          | .error e => .error e
          | .ok out =>
            match out.put_bytes hdr.dcid with
            | .error e => .error e
            | .ok out =>
              match out.put_bytes hdr.scid with
              | .error e => .error e
              | .ok out =>
                -- Only Initial packet have a token.
                if hdr.ty = PacketType.Initial then
                  match hdr.token with
                  | some v => out.put_bytes v
                  | none => out.put_varint 0
                else
                  .ok out

end Header

/-- `packet::pkt_num_len`. -/
def pkt_num_len (pn : Nat) : Except Error Nat :=
  if pn < 128 then .ok 1
  else if pn < 16384 then .ok 2
  else if pn < 1073741824 then .ok 4
  else .error Error.InvalidPacket

/-- `packet::pkt_num_bits`. -/
def pkt_num_bits (len : Nat) : Except Error Nat :=
  match len with
  | 1 => .ok 7
  | 2 => .ok 14
  | 4 => .ok 30
  | _ => .error Error.InvalidPacket

/-- `packet::decode_pkt_num`. `u64` additions carry an explicit `% 2^64`
(wrap-around); the guarded subtraction cannot underflow. -/
def decode_pkt_num (largest_pn truncated_pn : Nat) (pn_len : Nat) : Except Error Nat :=
  match pkt_num_bits pn_len with
  | .error e => .error e
  | .ok pn_nbits =>
    let expected_pn := (largest_pn + 1) % 2 ^ 64
    let pn_win := 1 <<< pn_nbits
    let pn_hwin := pn_win / 2
    let pn_mask := pn_win - 1
    -- `(expected_pn & !pn_mask) | truncated_pn` on `u64`
    let candidate_pn := (expected_pn &&& ((2 ^ 64 - 1) ^^^ pn_mask)) ||| truncated_pn
    if (candidate_pn + pn_hwin) % 2 ^ 64 ≤ expected_pn then
      .ok ((candidate_pn + pn_win) % 2 ^ 64)
    else if (expected_pn + pn_hwin) % 2 ^ 64 < candidate_pn ∧ pn_win < candidate_pn then
      .ok (candidate_pn - pn_win)
    else
      .ok candidate_pn

/-- Modelled from the spec: the AEAD "open" capability (`crypto::Open`),
exposing the header-protection sample length (`alg().pn_nonce_len()`) and a
deterministic keystream derived from a sample: `ks sample i` is the `i`-th
keystream byte for that sample, applied by `xor_keystream`. -/
structure Open where
  pn_nonce_len : Nat
  ks : List Nat → Nat → Nat

/-- Modelled from the spec: `xor_keystream` masks a buffer byte-for-byte with
the keystream derived from `sample`, starting at keystream index `i`. -/
def xor_keystream (aead : Open) (sample : List Nat) : Nat → List Nat → List Nat
  | _, [] => []
  | i, x :: xs => (x ^^^ aead.ks sample i) :: xor_keystream aead sample (i + 1) xs

/-- `packet::decrypt_pkt_num`. Returns the outcome paired with the caller's
cursor. The cursor's offset is never advanced (the source only peeks), but
`peek_bytes` hands back a mutable alias of the caller's buffer and the
"Decrypt full pkt num in-place" step XORs the keystream into
`ciphertext[..len]` through that alias, so on the paths that reach it the
returned cursor carries the decrypted packet-number bytes written back into
the buffer. Out-of-bounds slice indexing (`ciphertext[0]` on an empty slice,
`ciphertext[..len]` past the slice length) is a `panicked` outcome and
happens before any write-back. -/
def decrypt_pkt_num (b : Bytes) (aead : Open) : RustResult (Nat × Nat) × Bytes :=
  let max_pn_len := min (usize_sub b.cap aead.pn_nonce_len) 4
  match b.peek_bytes (max_pn_len + aead.pn_nonce_len) with
  | .error e => (.err e, b)
  | .ok (pn_and_sample, b) =>
    let ciphertext := pn_and_sample.take max_pn_len
    let sample := pn_and_sample.drop max_pn_len
    -- `ciphertext[0]` aborts on an empty slice
    match ciphertext with
    | [] => (.panicked, b)
    | c0 :: _ =>
      -- Decrypt first byte of pkt num into separate buffer to get length.
      let first := c0 ^^^ aead.ks sample 0
      match (if first >>> 7 = 0 then .ok 1
             else match first >>> 6 with
                  | 2 => .ok 2
                  | 3 => .ok 4
                  | _ => .error Error.InvalidPacket : Except Error Nat) with
      | .error e => (.err e, b)
      | .ok len =>
        -- `ciphertext[..len]` aborts when `len` exceeds the slice length
        if len ≤ ciphertext.length then
          -- Decrypt full pkt num in-place: the decrypted bytes replace
          -- positions [off, off + len) of the caller's buffer.
          let plaintext0 := xor_keystream aead sample 0 (ciphertext.take len)
          let b : Bytes := ⟨b.data.take b.off ++ plaintext0 ++ b.data.drop (b.off + len), b.off⟩
          -- Mask the 2 most significant bits to remove the encoded length
          -- (on the copied-out bytes, not the buffer).
          let plaintext :=
            if 1 < len then (plaintext0.headD 0 &&& 0x3f) :: plaintext0.tail
            else plaintext0
          match (match len with
                 | 1 =>
                   match Bytes.get_u8 ⟨plaintext, 0⟩ with
                   | .error e => .error e
                   | .ok (v, _) => .ok v
                 | 2 =>
                   match Bytes.get_u16 ⟨plaintext, 0⟩ with
                   | .error e => .error e
                   | .ok (v, _) => .ok v
                 | 4 =>
                   match Bytes.get_u32 ⟨plaintext, 0⟩ with
                   | .error e => .error e
                   | .ok (v, _) => .ok v
                 | _ => .error Error.InvalidPacket : Except Error Nat) with
          | .error e => (.err e, b)
          | .ok out => (.ok (out, len), b)
        else
          (.panicked, b)

/-- Modelled from the spec: the AEAD "seal" capability (tag length only). -/
structure Seal where
  tag_len : Nat

/-- Modelled from the spec: encryption levels (`crypto::Level`). -/
inductive Level where
  | Initial
  | ZeroRTT
  | Handshake
  | Application
deriving DecidableEq

/-- Modelled from the spec: the received-packet-number range set
(`ranges::RangeSet`), consumed opaquely. -/
structure RangeSet where
  ranges : List (Nat × Nat)
deriving DecidableEq

def RangeSet.default : RangeSet := ⟨[]⟩

/-- Modelled from the spec: the in-flight sent-packet ledger
(`recovery::InFlight`), holding sent / lost / acked bookkeeping; its default
is empty. -/
structure InFlight where
  sent : List Nat
  lost : List Nat
  acked : List Nat
deriving DecidableEq

def InFlight.default : InFlight := ⟨[], [], []⟩

/-- Modelled from the spec: the handshake-data stream (`stream::Stream`; named
`CryptoStream` here because Lean already has a `Stream` class) with its
send/receive windows and buffered data; its `default()` is empty with zero
windows. -/
structure CryptoStream where
  max_send_data : Nat
  max_recv_data : Nat
  send_buf : List Nat
  recv_buf : List Nat
deriving DecidableEq

def CryptoStream.default : CryptoStream := ⟨0, 0, [], []⟩

/-- Modelled from the spec: `Stream::new(max_recv, max_send)` starts empty
with the given windows. -/
def CryptoStream.new (max_recv max_send : Nat) : CryptoStream := ⟨max_send, max_recv, [], []⟩

/-- `packet::PktNumSpace`. -/
structure PktNumSpace where
  pkt_type : PacketType
  largest_rx_pkt_num : Nat
  next_pkt_num : Nat
  recv_pkt_num : RangeSet
  flight : InFlight
  do_ack : Bool
  crypto_level : Level
  crypto_open : Option Open
  crypto_seal : Option Seal
  crypto_stream : CryptoStream

namespace PktNumSpace

/-- `PktNumSpace::new`. -/
def new (ty : PacketType) (crypto_level : Level) : PktNumSpace where
  pkt_type := ty
  largest_rx_pkt_num := 0
  next_pkt_num := 0
  recv_pkt_num := RangeSet.default
  flight := InFlight.default
  do_ack := false
  crypto_level := crypto_level
  crypto_open := none
  crypto_seal := none
  crypto_stream := CryptoStream.new (2 ^ 64 - 1) (2 ^ 64 - 1)

/-- `PktNumSpace::clear`. -/
def clear (s : PktNumSpace) : PktNumSpace :=
  { s with flight := InFlight.default, crypto_stream := CryptoStream.default }

/-- `PktNumSpace::ready`. `Stream::writable` is modelled from the spec as
"has unsent handshake-stream data". -/
def ready (s : PktNumSpace) : Bool :=
  ¬ s.crypto_stream.send_buf.isEmpty ∨ ¬ s.flight.lost.isEmpty ∨ s.do_ack

end PktNumSpace

def be32 (v : Nat) : List Nat := [(v >>> 24) % 256, (v >>> 16) % 256, (v >>> 8) % 256, v % 256]

def long_type_code : PacketType → Nat
  | PacketType.Initial => 0x7f
  | PacketType.Retry => 0x7e
  | PacketType.Handshake => 0x7d
  | PacketType.ZeroRTT => 0x7c
  | _ => 0

def Header.cil_byte (hdr : Header) : Nat :=
  (if hdr.dcid.length ≠ 0 then ((usize_sub hdr.dcid.length 3 % 256) <<< 4) % 256 else 0) |||
  (if hdr.scid.length ≠ 0 then usize_sub hdr.scid.length 3 % 256 &&& 0xf else 0)

def Header.token_tail (hdr : Header) : List Nat :=
  if hdr.ty = PacketType.Initial then
    match hdr.token with
    | some v => v
    | none => [0]
  else []

def Header.long_wire (hdr : Header) : List Nat :=
  (FORM_BIT ||| long_type_code hdr.ty) ::
    (be32 hdr.version ++ hdr.cil_byte :: (hdr.dcid ++ (hdr.scid ++ hdr.token_tail)))

def Header.wire_len (hdr : Header) : Nat := hdr.long_wire.length

/-! ## Helper lemmas -/

lemma land_not_mask (x bits : Nat) (hx : x < 2 ^ 64) (hb : bits ≤ 64) :
    x &&& ((2 ^ 64 - 1) ^^^ (2 ^ bits - 1)) = x - x % 2 ^ bits := by
  have hxm : x - x % 2 ^ bits = (x >>> bits) <<< bits := by
    rw [Nat.shiftRight_eq_div_pow, Nat.shiftLeft_eq]
    have h := Nat.div_add_mod x (2 ^ bits)
    rw [Nat.mul_comm] at h
    exact Nat.sub_eq_of_eq_add (by omega)
  rw [hxm]
  apply Nat.eq_of_testBit_eq
  intro i
  simp only [Nat.testBit_and, Nat.testBit_xor, Nat.testBit_two_pow_sub_one,
             Nat.testBit_shiftLeft, Nat.testBit_shiftRight]
  rcases Nat.lt_or_ge i bits with hib | hib
  · rw [decide_eq_true (show i < 64 by omega), decide_eq_true hib,
        decide_eq_false (by omega : ¬ bits ≤ i)]
    simp
  · rcases Nat.lt_or_ge i 64 with h64 | h64
    · rw [decide_eq_true h64, decide_eq_false (by omega : ¬ i < bits),
          decide_eq_true hib, show bits + (i - bits) = i by omega]
      simp
    · have hxi : x.testBit i = false :=
        Nat.testBit_lt_two_pow (lt_of_lt_of_le hx (Nat.pow_le_pow_right (by norm_num) h64))
      rw [decide_eq_false (by omega : ¬ i < 64), decide_eq_false (by omega : ¬ i < bits),
          decide_eq_true hib, show bits + (i - bits) = i by omega, hxi]
      simp

lemma sub_mod_or_eq_add (x t bits : Nat) (ht : t < 2 ^ bits) :
    (x - x % 2 ^ bits) ||| t = (x - x % 2 ^ bits) + t := by
  have h : x - x % 2 ^ bits = 2 ^ bits * (x / 2 ^ bits) := by
    have := Nat.div_add_mod x (2 ^ bits)
    omega
  rw [h, ← Nat.mul_add_lt_is_or ht]

/-- The heart of claim C1: whenever the true packet number `pn` fits in
`bits` bits and lies above `largest + 1 - hwin`, the windowing rule of
`decode_pkt_num` reconstructs it exactly. -/
lemma decode_pkt_num_window (largest pn len bits : Nat)
    (hlb : pkt_num_bits len = .ok bits)
    (hb1 : 1 ≤ bits) (hb30 : bits ≤ 30)
    (hpn : pn < 2 ^ bits)
    (hcond : largest + 1 < pn + 2 ^ bits / 2) :
    decode_pkt_num largest (pn % 2 ^ bits) len = .ok pn := by
  have hw30 : 2 ^ bits ≤ 1073741824 := by
    calc 2 ^ bits ≤ 2 ^ 30 := Nat.pow_le_pow_right (by norm_num) hb30
    _ = 1073741824 := by norm_num
  have hev : 2 ^ bits % 2 = 0 := by
    have : (2 : Nat) ∣ 2 ^ bits := dvd_pow_self 2 (by omega)
    omega
  have he : (largest + 1) % 2 ^ 64 = largest + 1 := Nat.mod_eq_of_lt (by omega)
  unfold decode_pkt_num
  simp only [hlb, Nat.one_shiftLeft, he]
  rw [Nat.mod_eq_of_lt hpn]
  rw [land_not_mask (largest + 1) bits (by omega) (by omega)]
  rw [sub_mod_or_eq_add (largest + 1) pn bits hpn]
  set e := largest + 1 with hee
  rcases Nat.lt_or_ge e (2 ^ bits) with hlt | hge
  · have h : e % 2 ^ bits = e := Nat.mod_eq_of_lt hlt
    rw [h]
    rw [Nat.mod_eq_of_lt (show e - e + pn + 2 ^ bits / 2 < 2 ^ 64 by omega)]
    rw [if_neg (by omega)]
    rw [Nat.mod_eq_of_lt (show e + 2 ^ bits / 2 < 2 ^ 64 by omega)]
    rw [if_neg (by push_neg; intro h1; omega)]
    simp only [Except.ok.injEq]
    omega
  · have h : e % 2 ^ bits = e - 2 ^ bits := by
      rw [Nat.mod_eq_sub_mod hge, Nat.mod_eq_of_lt (by omega)]
    rw [h]
    rw [Nat.mod_eq_of_lt (show e - (e - 2 ^ bits) + pn + 2 ^ bits / 2 < 2 ^ 64 by omega)]
    rw [if_neg (by omega)]
    rw [Nat.mod_eq_of_lt (show e + 2 ^ bits / 2 < 2 ^ 64 by omega)]
    rw [if_pos (by constructor <;> omega)]
    simp only [Except.ok.injEq]
    omega

lemma peek_bytes_ok_eq {n : Nat} {b b' : Bytes} {l : List Nat}
    (h : Bytes.peek_bytes n b = .ok (l, b')) : b' = b := by
  unfold Bytes.peek_bytes at h
  split at h
  · simp only [Except.ok.injEq, Prod.mk.injEq] at h
    exact h.2.symm
  · exact absurd h (by simp)

lemma xor_keystream_length (aead : Open) (s : List Nat) :
    ∀ (i : Nat) (l : List Nat), (xor_keystream aead s i l).length = l.length := by
  intro i l
  induction l generalizing i with
  | nil => rfl
  | cons x xs ih => simp [xor_keystream, ih]

lemma get_u8_err_len {l : List Nat} {off : Nat} {e : Error}
    (h : Bytes.get_u8 ⟨l, off⟩ = .error e) : l.length < off + 1 := by
  unfold Bytes.get_u8 at h
  split at h
  · rename_i he
    unfold Bytes.get_bytes at he
    split at he
    · exact absurd he (by simp)
    · rename_i hguard
      simp only at hguard
      omega
  · exact absurd h (by simp)

lemma get_u16_err_len {l : List Nat} {off : Nat} {e : Error}
    (h : Bytes.get_u16 ⟨l, off⟩ = .error e) : l.length < off + 2 := by
  unfold Bytes.get_u16 at h
  split at h
  · rename_i he
    unfold Bytes.get_bytes at he
    split at he
    · exact absurd he (by simp)
    · rename_i hguard
      simp only at hguard
      omega
  · exact absurd h (by simp)

lemma get_u32_err_len {l : List Nat} {off : Nat} {e : Error}
    (h : Bytes.get_u32 ⟨l, off⟩ = .error e) : l.length < off + 4 := by
  unfold Bytes.get_u32 at h
  split at h
  · rename_i he
    unfold Bytes.get_bytes at he
    split at he
    · exact absurd he (by simp)
    · rename_i hguard
      simp only at hguard
      omega
  · exact absurd h (by simp)

lemma decrypt_pkt_num_off_eq (b : Bytes) (aead : Open) :
    (decrypt_pkt_num b aead).2.off = b.off := by
  unfold decrypt_pkt_num
  dsimp only
  split
  · rfl
  · rename_i pn_and_sample b' hpk
    have hb' : b' = b := peek_bytes_ok_eq hpk
    subst hb'
    repeat' split
    all_goals rfl

lemma decrypt_pkt_num_err_snd_eq (b : Bytes) (aead : Open) :
    ∀ e, (decrypt_pkt_num b aead).1 = RustResult.err e → (decrypt_pkt_num b aead).2 = b := by
  unfold decrypt_pkt_num
  dsimp only
  split
  · intro e h
    rfl
  · rename_i pn_and_sample b' hpk
    have hb' : b' = b := peek_bytes_ok_eq hpk
    subst hb'
    split
    · intro e h
      rfl
    · rename_i c0 tail hct
      split
      · intro e h
        rfl
      · rename_i len hlen
        split
        · -- the in-place write-back has happened: show no error can be
          -- returned from this branch, so the hypothesis is absurd
          rename_i hle
          have hlv : len = 1 ∨ len = 2 ∨ len = 4 := by
            split at hlen
            · exact Or.inl (Except.ok.inj hlen).symm
            · split at hlen
              · exact Or.inr (Or.inl (Except.ok.inj hlen).symm)
              · exact Or.inr (Or.inr (Except.ok.inj hlen).symm)
              · exact absurd hlen (by simp)
          intro e h
          split at h
          · rename_i e1 hex
            exfalso
            rcases hlv with hl | hl | hl <;> subst hl <;> dsimp only at hex
            · rw [if_neg (by norm_num)] at hex
              split at hex
              · rename_i he
                have hsz := get_u8_err_len he
                rw [xor_keystream_length] at hsz
                simp only [List.length_take] at hsz hle
                omega
              · exact absurd hex (by simp)
            · rw [if_pos (by norm_num)] at hex
              split at hex
              · rename_i he
                have hsz := get_u16_err_len he
                simp only [List.length_cons, List.length_tail,
                  xor_keystream_length, List.length_take] at hsz
                simp only [List.length_take] at hle
                omega
              · exact absurd hex (by simp)
            · rw [if_pos (by norm_num)] at hex
              split at hex
              · rename_i he
                have hsz := get_u32_err_len he
                simp only [List.length_cons, List.length_tail,
                  xor_keystream_length, List.length_take] at hsz
                simp only [List.length_take] at hle
                omega
              · exact absurd hex (by simp)
          · simp at h
        · intro e h
          rfl

/-! ## Claims -/

/-- C1: for a chosen `largest_pn` and any `pn` within one window of it (the
window of width `2^bits` centred on `expected = largest_pn + 1`; the lower
half-window bound is the hypothesis, the upper is automatic since
`len = pkt_num_len pn` forces `pn < 2^bits`),
`decode_pkt_num largest_pn (pn % 2^bits) len` recovers `pn` exactly, where
`len = pkt_num_len pn` and `bits = pkt_num_bits len`. -/
theorem decode_pkt_num_inverts_within_window (largest_pn pn len bits : Nat)
    (hlen : pkt_num_len pn = .ok len)
    (hbits : pkt_num_bits len = .ok bits)
    (hcond : largest_pn + 1 < pn + 2 ^ bits / 2) :
    decode_pkt_num largest_pn (pn % 2 ^ bits) len = .ok pn := by
  unfold pkt_num_len at hlen
  split_ifs at hlen with h1 h2 h3
  · injection hlen with hlen
    subst hlen
    simp only [pkt_num_bits, Except.ok.injEq] at hbits
    subst hbits
    exact decode_pkt_num_window largest_pn pn 1 7 rfl (by omega) (by omega)
      (by omega) hcond
  · injection hlen with hlen
    subst hlen
    simp only [pkt_num_bits, Except.ok.injEq] at hbits
    subst hbits
    exact decode_pkt_num_window largest_pn pn 2 14 rfl (by omega) (by omega)
      (by omega) hcond
  · injection hlen with hlen
    subst hlen
    simp only [pkt_num_bits, Except.ok.injEq] at hbits
    subst hbits
    exact decode_pkt_num_window largest_pn pn 4 30 rfl (by omega) (by omega)
      (by omega) hcond

theorem decode_pkt_num_inverts_within_window_witness :
    pkt_num_len 5 = .ok 1 ∧ pkt_num_bits 1 = .ok 7 ∧ 10 + 1 < 5 + 2 ^ 7 / 2 ∧
    decode_pkt_num 10 (5 % 2 ^ 7) 1 = .ok 5 :=
  ⟨by decide, by decide, by decide,
   decode_pkt_num_inverts_within_window 10 5 1 7 (by decide) (by decide) (by decide)⟩

/-- C4: `pkt_num_len` returns 1 below 128, 2 below 16384, 4 below
1073741824, and `InvalidPacket` from 1073741824 on. -/
theorem pkt_num_len_boundaries (pn : Nat) :
    (pn < 128 → pkt_num_len pn = .ok 1) ∧
    (128 ≤ pn → pn < 16384 → pkt_num_len pn = .ok 2) ∧
    (16384 ≤ pn → pn < 1073741824 → pkt_num_len pn = .ok 4) ∧
    (1073741824 ≤ pn → pkt_num_len pn = .error Error.InvalidPacket) := by
  refine ⟨fun h => ?_, fun h1 h2 => ?_, fun h1 h2 => ?_, fun h => ?_⟩ <;>
    · unfold pkt_num_len
      split_ifs <;> first | rfl | omega

theorem pkt_num_len_boundaries_witness :
    pkt_num_len 127 = .ok 1 ∧ pkt_num_len 128 = .ok 2 ∧ pkt_num_len 16383 = .ok 2 ∧
    pkt_num_len 16384 = .ok 4 ∧ pkt_num_len 1073741823 = .ok 4 ∧
    pkt_num_len 1073741824 = .error Error.InvalidPacket :=
  ⟨(pkt_num_len_boundaries 127).1 (by decide),
   (pkt_num_len_boundaries 128).2.1 (by decide) (by decide),
   (pkt_num_len_boundaries 16383).2.1 (by decide) (by decide),
   (pkt_num_len_boundaries 16384).2.2.1 (by decide) (by decide),
   (pkt_num_len_boundaries 1073741823).2.2.1 (by decide) (by decide),
   (pkt_num_len_boundaries 1073741824).2.2.2 (by decide)⟩

/-- C6 (amended): `decrypt_pkt_num` never advances the cursor offset (it
only peeks), and whenever it returns an error the buffer is untouched, so
re-invoking it on the returned cursor yields the identical outcome. On
success, however, the packet-number bytes have been decrypted in place, so a
second invocation operates on mutated bytes and is not guaranteed to return
the same truncated number and length. -/
theorem decrypt_pkt_num_offset_preserved_idempotent_on_error (b : Bytes) (aead : Open) :
    (decrypt_pkt_num b aead).2.off = b.off ∧
    ∀ e, (decrypt_pkt_num b aead).1 = RustResult.err e →
      decrypt_pkt_num (decrypt_pkt_num b aead).2 aead = decrypt_pkt_num b aead := by
  refine ⟨decrypt_pkt_num_off_eq b aead, fun e h => ?_⟩
  rw [decrypt_pkt_num_err_snd_eq b aead e h]

theorem decrypt_pkt_num_offset_preserved_idempotent_on_error_witness :
    (decrypt_pkt_num ⟨[], 0⟩ ⟨4, fun _ _ => 0⟩).2.off = 0 ∧
    decrypt_pkt_num (decrypt_pkt_num ⟨[], 0⟩ ⟨4, fun _ _ => 0⟩).2 ⟨4, fun _ _ => 0⟩ =
      decrypt_pkt_num ⟨[], 0⟩ ⟨4, fun _ _ => 0⟩ :=
  ⟨(decrypt_pkt_num_offset_preserved_idempotent_on_error ⟨[], 0⟩ ⟨4, fun _ _ => 0⟩).1,
   (decrypt_pkt_num_offset_preserved_idempotent_on_error ⟨[], 0⟩ ⟨4, fun _ _ => 0⟩).2
     Error.BufferTooShort (by decide)⟩

/-- C6 (counterexample to the claim as stated): the first call decrypts the
packet-number bytes in place through the peeked buffer, so a second
invocation on the returned cursor re-XORs the keystream onto the decrypted
bytes and returns a different truncated number and length: with keystream
byte `0x80` over a buffer starting `0x00 0x00`, the first call resolves
length 2 and value 128, the second call resolves length 1 and value 0. -/
theorem decrypt_pkt_num_not_idempotent_after_success :
    decrypt_pkt_num ⟨[0, 0, 1, 2, 3, 4], 0⟩ ⟨4, fun _ _ => 0x80⟩ =
      (.ok (128, 2), ⟨[0x80, 0x80, 1, 2, 3, 4], 0⟩) ∧
    decrypt_pkt_num ⟨[0x80, 0x80, 1, 2, 3, 4], 0⟩ ⟨4, fun _ _ => 0x80⟩ =
      (.ok (0, 1), ⟨[0, 0x80, 1, 2, 3, 4], 0⟩) ∧
    ((0 : Nat), (1 : Nat)) ≠ ((128 : Nat), (2 : Nat)) := by
  decide

/-- C2 (failing-input evaluation): on a buffer whose remaining length equals
the AEAD sample length, `decrypt_pkt_num` panics — `max_pn_len` computes to
0 and `ciphertext[0]` indexes an empty slice — instead of returning a result
or an error. -/
theorem decrypt_pkt_num_panics_when_only_sample_remains :
    decrypt_pkt_num ⟨[0, 0, 0, 0], 0⟩ ⟨4, fun _ _ => 0⟩ =
      (RustResult.panicked, ⟨[0, 0, 0, 0], 0⟩) := by
  decide

/-- C7: `clear` preserves the packet type, both packet-number counters, the
ACK flag, the received-range set, the crypto level and both installed keys,
while resetting the in-flight ledger and the crypto stream to empty. -/
theorem clear_preserves_counters_and_keys (s : PktNumSpace) :
    s.clear.next_pkt_num = s.next_pkt_num ∧
    s.clear.largest_rx_pkt_num = s.largest_rx_pkt_num ∧
    s.clear.pkt_type = s.pkt_type ∧
    s.clear.crypto_level = s.crypto_level ∧
    s.clear.do_ack = s.do_ack ∧
    s.clear.recv_pkt_num = s.recv_pkt_num ∧
    s.clear.crypto_open = s.crypto_open ∧
    s.clear.crypto_seal = s.crypto_seal ∧
    s.clear.flight = InFlight.default ∧
    s.clear.crypto_stream = CryptoStream.default :=
  ⟨rfl, rfl, rfl, rfl, rfl, rfl, rfl, rfl, rfl, rfl⟩

lemma get_bytes_error {n : Nat} {b : Bytes} {e : Error}
    (h : Bytes.get_bytes n b = .error e) : e = Error.BufferTooShort := by
  unfold Bytes.get_bytes at h
  split at h
  · exact absurd h (by simp)
  · exact (Except.error.inj h).symm

lemma peek_bytes_error {n : Nat} {b : Bytes} {e : Error}
    (h : Bytes.peek_bytes n b = .error e) : e = Error.BufferTooShort := by
  unfold Bytes.peek_bytes at h
  split at h
  · exact absurd h (by simp)
  · exact (Except.error.inj h).symm

lemma get_u8_error {b : Bytes} {e : Error}
    (h : Bytes.get_u8 b = .error e) : e = Error.BufferTooShort := by
  unfold Bytes.get_u8 at h
  split at h
  · rename_i e' he
    have h1 := Except.error.inj h
    subst h1
    exact get_bytes_error he
  · exact absurd h (by simp)

lemma get_u16_error {b : Bytes} {e : Error}
    (h : Bytes.get_u16 b = .error e) : e = Error.BufferTooShort := by
  unfold Bytes.get_u16 at h
  split at h
  · rename_i e' he
    have h1 := Except.error.inj h
    subst h1
    exact get_bytes_error he
  · exact absurd h (by simp)

lemma get_u32_error {b : Bytes} {e : Error}
    (h : Bytes.get_u32 b = .error e) : e = Error.BufferTooShort := by
  unfold Bytes.get_u32 at h
  split at h
  · rename_i e' he
    have h1 := Except.error.inj h
    subst h1
    exact get_bytes_error he
  · exact absurd h (by simp)

lemma peek_bytes_ok_mem {n : Nat} {b b' : Bytes} {l : List Nat}
    (h : Bytes.peek_bytes n b = .ok (l, b')) : ∀ x ∈ l, x ∈ b.data := by
  unfold Bytes.peek_bytes at h
  split at h
  · simp only [Except.ok.injEq, Prod.mk.injEq] at h
    intro x hx
    rw [← h.1] at hx
    exact List.mem_of_mem_drop (List.mem_of_mem_take hx)
  · exact absurd h (by simp)

/-- C10: for every value of the decrypted first byte (a `u8`), the length
discriminator of `decrypt_pkt_num` resolves to 1, 2 or 4; the
`InvalidPacket` arm of the discriminator match is unreachable, and
`decrypt_pkt_num` never returns `InvalidPacket` at all. -/
theorem decrypt_pkt_num_discriminator_total (b : Bytes) (aead : Open)
    (hdata : ∀ x ∈ b.data, x < 256) (hks : ∀ s i, aead.ks s i < 256) :
    (decrypt_pkt_num b aead).1 ≠ RustResult.err Error.InvalidPacket := by
  unfold decrypt_pkt_num
  dsimp only
  split
  · rename_i e hpk
    have := peek_bytes_error hpk
    subst this
    simp
  · rename_i pn_and_sample b' hpk
    have hmem := peek_bytes_ok_mem hpk
    split
    · simp
    · rename_i c0 tail hct
      have hc0 : c0 < 256 := by
        apply hdata
        apply hmem
        have h1 : c0 ∈ pn_and_sample.take (min (usize_sub b.cap aead.pn_nonce_len) 4) := by
          rw [hct]
          exact List.mem_cons_self _ _
        exact List.mem_of_mem_take h1
      have hksb := hks (pn_and_sample.drop (min (usize_sub b.cap aead.pn_nonce_len) 4)) 0
      have hfirst : c0 ^^^ aead.ks (pn_and_sample.drop (min (usize_sub b.cap aead.pn_nonce_len) 4)) 0 < 256 := by
        have h2 : (256 : Nat) = 2 ^ 8 := by norm_num
        rw [h2]
        exact Nat.xor_lt_two_pow (by omega) (by omega)
      set first := c0 ^^^ aead.ks (pn_and_sample.drop (min (usize_sub b.cap aead.pn_nonce_len) 4)) 0 with hfdef
      split
      · rename_i e heq
        by_cases h7 : first >>> 7 = 0
        · rw [if_pos h7] at heq
          exact absurd heq (by simp)
        · rw [if_neg h7] at heq
          have h6 : first >>> 6 = 2 ∨ first >>> 6 = 3 := by
            rw [Nat.shiftRight_eq_div_pow] at h7 ⊢
            norm_num at h7 ⊢
            omega
          rcases h6 with h | h <;> rw [h] at heq <;> exact absurd heq (by simp)
      · rename_i len hlen
        have hlv : len = 1 ∨ len = 2 ∨ len = 4 := by
          by_cases h7 : first >>> 7 = 0
          · rw [if_pos h7] at hlen
            exact Or.inl (Except.ok.inj hlen).symm
          · rw [if_neg h7] at hlen
            have h6 : first >>> 6 = 2 ∨ first >>> 6 = 3 := by
              rw [Nat.shiftRight_eq_div_pow] at h7 ⊢
              norm_num at h7 ⊢
              omega
            rcases h6 with h | h <;> rw [h] at hlen
            · exact Or.inr (Or.inl (Except.ok.inj hlen).symm)
            · exact Or.inr (Or.inr (Except.ok.inj hlen).symm)
        split
        · split
          · rename_i e hex
            rcases hlv with h | h | h <;> subst h <;> dsimp only at hex <;> split at hex
            · rename_i he
              have hbts := get_u8_error he
              have h2 := Except.error.inj hex
              rw [← h2, hbts]
              simp
            · exact absurd hex (by simp)
            · rename_i he
              have hbts := get_u16_error he
              have h2 := Except.error.inj hex
              rw [← h2, hbts]
              simp
            · exact absurd hex (by simp)
            · rename_i he
              have hbts := get_u32_error he
              have h2 := Except.error.inj hex
              rw [← h2, hbts]
              simp
            · exact absurd hex (by simp)
          · simp
        · simp

lemma short_first_bits (r : Nat) :
    Header.short_first r &&& FORM_BIT = 0 ∧
    Header.short_first r &&& KEY_PHASE_BIT = 0 ∧
    Header.short_first r &&& 0x30 = 0x30 ∧
    Header.short_first r &&& DEMUX_BIT = 0 := by
  have h127 : u8_not FORM_BIT = 127 := by decide
  have hs : r &&& 127 = r % 128 := by
    have h := Nat.and_pow_two_sub_one_eq_mod r 7
    norm_num at h
    exact h
  have hlt : r % 128 < 128 := Nat.mod_lt _ (by norm_num)
  have key : ∀ s, s < 128 →
      ((((s &&& u8_not KEY_PHASE_BIT) ||| 0x20) ||| 0x10) &&& u8_not DEMUX_BIT) &&& FORM_BIT = 0 ∧
      ((((s &&& u8_not KEY_PHASE_BIT) ||| 0x20) ||| 0x10) &&& u8_not DEMUX_BIT) &&& KEY_PHASE_BIT = 0 ∧
      ((((s &&& u8_not KEY_PHASE_BIT) ||| 0x20) ||| 0x10) &&& u8_not DEMUX_BIT) &&& 0x30 = 0x30 ∧
      ((((s &&& u8_not KEY_PHASE_BIT) ||| 0x20) ||| 0x10) &&& u8_not DEMUX_BIT) &&& DEMUX_BIT = 0 := by
    decide
  unfold Header.short_first
  rw [h127, hs]
  exact key (r % 128) hlt

/-- C8: for every short-form (Application) header and every random base
byte, the emitted first octet has the form bit (0x80) clear, the key-phase
bit (0x40) clear, bits 0x30 set and the demux bit (0x08) clear, and it is
followed by exactly the raw dcid bytes. -/
theorem short_header_first_octet (hdr : Header) (r : Nat)
    (happ : hdr.ty = PacketType.Application) :
    Header.to_bytes hdr r ⟨List.replicate (hdr.dcid.length + 1) 0, 0⟩ =
      .ok ⟨Header.short_first r :: hdr.dcid, hdr.dcid.length + 1⟩ ∧
    Header.short_first r &&& FORM_BIT = 0 ∧
    Header.short_first r &&& KEY_PHASE_BIT = 0 ∧
    Header.short_first r &&& 0x30 = 0x30 ∧
    Header.short_first r &&& DEMUX_BIT = 0 := by
  refine ⟨?_, short_first_bits r⟩
  have h1 : Bytes.put_u8 (Header.short_first r) ⟨List.replicate (hdr.dcid.length + 1) 0, 0⟩ =
      .ok ⟨Header.short_first r :: List.replicate hdr.dcid.length 0, 1⟩ := by
    unfold Bytes.put_u8 Bytes.put_bytes
    rw [if_pos (by simp)]
    simp [List.replicate_succ]
  have h2 : Bytes.put_bytes hdr.dcid ⟨Header.short_first r :: List.replicate hdr.dcid.length 0, 1⟩ =
      .ok ⟨Header.short_first r :: hdr.dcid, hdr.dcid.length + 1⟩ := by
    unfold Bytes.put_bytes
    rw [if_pos (by simp; omega)]
    congr 1
    simp only [List.take_succ_cons, List.take_zero]
    rw [show 1 + hdr.dcid.length = hdr.dcid.length + 1 from Nat.add_comm 1 _]
    simp only [List.drop_succ_cons]
    rw [List.drop_eq_nil_of_le (by simp)]
    simp
  unfold Header.to_bytes
  rw [if_pos happ, h1]
  dsimp only
  exact h2

theorem decrypt_pkt_num_discriminator_total_witness :
    (decrypt_pkt_num ⟨[5, 1, 2, 3, 4], 0⟩ ⟨4, fun _ _ => 0⟩).1 ≠
      RustResult.err Error.InvalidPacket :=
  decrypt_pkt_num_discriminator_total ⟨[5, 1, 2, 3, 4], 0⟩ ⟨4, fun _ _ => 0⟩
    (by decide) (fun _ _ => Nat.zero_lt_succ 255)

theorem short_header_first_octet_witness :
    Header.to_bytes ⟨PacketType.Application, 0, 0, [7, 8, 9, 10], [], none, none⟩ 255
        ⟨[0, 0, 0, 0, 0], 0⟩ =
      .ok ⟨Header.short_first 255 :: [7, 8, 9, 10], 5⟩ ∧
    Header.short_first 255 &&& FORM_BIT = 0 ∧
    Header.short_first 255 &&& KEY_PHASE_BIT = 0 ∧
    Header.short_first 255 &&& 0x30 = 0x30 ∧
    Header.short_first 255 &&& DEMUX_BIT = 0 :=
  short_header_first_octet ⟨PacketType.Application, 0, 0, [7, 8, 9, 10], [], none, none⟩ 255 rfl

lemma put_bytes_step {b : Bytes} (w rest v : List Nat)
    (hdata : b.data = w ++ rest) (hoff : b.off = w.length) (h : v.length ≤ rest.length) :
    Bytes.put_bytes v b = .ok ⟨w ++ (v ++ rest.drop v.length), w.length + v.length⟩ := by
  obtain ⟨data, off⟩ := b
  simp only at hdata hoff
  subst hdata hoff
  unfold Bytes.put_bytes
  rw [if_pos (by simpa using h)]
  rw [List.take_left, ← List.drop_drop, List.drop_left]
  simp [List.append_assoc]

lemma put_u8_step {b : Bytes} (w rest : List Nat) (x : Nat)
    (hdata : b.data = w ++ rest) (hoff : b.off = w.length) (h : 1 ≤ rest.length) :
    Bytes.put_u8 x b = .ok ⟨w ++ ([x] ++ rest.drop 1), w.length + 1⟩ :=
  put_bytes_step w rest [x] hdata hoff (by simpa using h)

lemma put_u32_step {b : Bytes} (w rest : List Nat) (v : Nat)
    (hdata : b.data = w ++ rest) (hoff : b.off = w.length) (h : 4 ≤ rest.length) :
    Bytes.put_u32 v b = .ok ⟨w ++ (be32 v ++ rest.drop 4), w.length + 4⟩ :=
  put_bytes_step w rest (be32 v) hdata hoff (by simpa [be32] using h)

lemma put_varint_zero_step {b : Bytes} (w rest : List Nat)
    (hdata : b.data = w ++ rest) (hoff : b.off = w.length) (h : 1 ≤ rest.length) :
    Bytes.put_varint 0 b = .ok ⟨w ++ ([0] ++ rest.drop 1), w.length + 1⟩ := by
  unfold Bytes.put_varint
  rw [if_pos (by norm_num)]
  exact put_bytes_step w rest [0] hdata hoff (by simpa using h)

lemma to_bytes_long_eq (hdr : Header) (r : Nat) (d : List Nat)
    (hty : hdr.ty ≠ PacketType.VersionNegotiation ∧ hdr.ty ≠ PacketType.Application)
    (hlen : hdr.wire_len ≤ d.length) :
    Header.to_bytes hdr r ⟨d, 0⟩ =
      .ok ⟨hdr.long_wire ++ d.drop hdr.wire_len, hdr.wire_len⟩ := by
  obtain ⟨ty, ver, fl, dc, sc, tok, vers⟩ := hdr
  cases ty
  case Initial =>
    rcases tok with _ | tokv
    · -- token = none
      have hwl : Header.wire_len ⟨PacketType.Initial, ver, fl, dc, sc, none, vers⟩ =
          6 + dc.length + sc.length + 1 := by
        simp [Header.wire_len, Header.long_wire, Header.token_tail, be32]
        omega
      rw [hwl] at hlen
      unfold Header.to_bytes
      rw [if_neg (by simp)]
      dsimp only
      set cil := (if dc.length ≠ 0 then (usize_sub dc.length 3 % 256) <<< 4 % 256 else 0) |||
          (if sc.length ≠ 0 then usize_sub sc.length 3 % 256 &&& 15 else 0) with hcil
      rw [put_u8_step [] d (FORM_BIT ||| 127) (by simp) (by simp) (by omega)]
      dsimp only
      rw [put_u32_step [FORM_BIT ||| 127] (d.drop 1) ver (by simp) (by simp)
          (by simp; omega)]
      dsimp only
      rw [put_u8_step ([FORM_BIT ||| 127] ++ be32 ver) ((d.drop 1).drop 4) cil
          (by simp) (by simp [be32]) (by simp; omega)]
      dsimp only
      rw [put_bytes_step (([FORM_BIT ||| 127] ++ be32 ver) ++ [cil])
          (((d.drop 1).drop 4).drop 1) dc
          (by simp [List.append_assoc]) (by simp [be32]) (by simp; omega)]
      dsimp only
      rw [put_bytes_step ((([FORM_BIT ||| 127] ++ be32 ver) ++ [cil]) ++ dc)
          ((((d.drop 1).drop 4).drop 1).drop dc.length) sc
          (by simp [List.append_assoc]) (by simp [be32]; omega) (by simp; omega)]
      dsimp only
      rw [if_pos rfl]
      rw [put_varint_zero_step (((([FORM_BIT ||| 127] ++ be32 ver) ++ [cil]) ++ dc) ++ sc)
          (((((d.drop 1).drop 4).drop 1).drop dc.length).drop sc.length)
          (by simp [List.append_assoc]) (by simp [be32]; omega) (by simp; omega)]
      rw [hwl]
      simp only [Header.long_wire, Header.cil_byte, Header.token_tail, long_type_code]
      simp [List.append_assoc, List.drop_drop, be32]
      refine ⟨?_, by omega⟩
      by_cases hd : dc = [] <;> by_cases hs : sc = [] <;>
        simp [hcil, hd, hs, List.length_eq_zero]
    · -- token = some tokv
      have hwl : Header.wire_len ⟨PacketType.Initial, ver, fl, dc, sc, some tokv, vers⟩ =
          6 + dc.length + sc.length + tokv.length := by
        simp [Header.wire_len, Header.long_wire, Header.token_tail, be32]
        omega
      rw [hwl] at hlen
      unfold Header.to_bytes
      rw [if_neg (by simp)]
      dsimp only
      set cil := (if dc.length ≠ 0 then (usize_sub dc.length 3 % 256) <<< 4 % 256 else 0) |||
          (if sc.length ≠ 0 then usize_sub sc.length 3 % 256 &&& 15 else 0) with hcil
      rw [put_u8_step [] d (FORM_BIT ||| 127) (by simp) (by simp) (by omega)]
      dsimp only
      rw [put_u32_step [FORM_BIT ||| 127] (d.drop 1) ver (by simp) (by simp)
          (by simp; omega)]
      dsimp only
      rw [put_u8_step ([FORM_BIT ||| 127] ++ be32 ver) ((d.drop 1).drop 4) cil
          (by simp) (by simp [be32]) (by simp; omega)]
      dsimp only
      rw [put_bytes_step (([FORM_BIT ||| 127] ++ be32 ver) ++ [cil])
          (((d.drop 1).drop 4).drop 1) dc
          (by simp [List.append_assoc]) (by simp [be32]) (by simp; omega)]
      dsimp only
      rw [put_bytes_step ((([FORM_BIT ||| 127] ++ be32 ver) ++ [cil]) ++ dc)
          ((((d.drop 1).drop 4).drop 1).drop dc.length) sc
          (by simp [List.append_assoc]) (by simp [be32]; omega) (by simp; omega)]
      dsimp only
      rw [if_pos rfl]
      rw [put_bytes_step (((([FORM_BIT ||| 127] ++ be32 ver) ++ [cil]) ++ dc) ++ sc)
          (((((d.drop 1).drop 4).drop 1).drop dc.length).drop sc.length) tokv
          (by simp [List.append_assoc]) (by simp [be32]; omega) (by simp; omega)]
      rw [hwl]
      simp only [Header.long_wire, Header.cil_byte, Header.token_tail, long_type_code]
      simp [List.append_assoc, List.drop_drop, be32]
      refine ⟨?_, by omega⟩
      by_cases hd : dc = [] <;> by_cases hs : sc = [] <;>
        simp [hcil, hd, hs, List.length_eq_zero]
  case Retry =>
    have hwl : Header.wire_len ⟨PacketType.Retry, ver, fl, dc, sc, tok, vers⟩ =
        6 + dc.length + sc.length := by
      simp [Header.wire_len, Header.long_wire, Header.token_tail, be32]
      omega
    rw [hwl] at hlen
    unfold Header.to_bytes
    rw [if_neg (by simp)]
    dsimp only
    set cil := (if dc.length ≠ 0 then (usize_sub dc.length 3 % 256) <<< 4 % 256 else 0) |||
        (if sc.length ≠ 0 then usize_sub sc.length 3 % 256 &&& 15 else 0) with hcil
    rw [put_u8_step [] d (FORM_BIT ||| 126) (by simp) (by simp) (by omega)]
    dsimp only
    rw [put_u32_step [FORM_BIT ||| 126] (d.drop 1) ver (by simp) (by simp)
        (by simp; omega)]
    dsimp only
    rw [put_u8_step ([FORM_BIT ||| 126] ++ be32 ver) ((d.drop 1).drop 4) cil
        (by simp) (by simp [be32]) (by simp; omega)]
    dsimp only
    rw [put_bytes_step (([FORM_BIT ||| 126] ++ be32 ver) ++ [cil])
        (((d.drop 1).drop 4).drop 1) dc
        (by simp [List.append_assoc]) (by simp [be32]) (by simp; omega)]
    dsimp only
    rw [put_bytes_step ((([FORM_BIT ||| 126] ++ be32 ver) ++ [cil]) ++ dc)
        ((((d.drop 1).drop 4).drop 1).drop dc.length) sc
        (by simp [List.append_assoc]) (by simp [be32]; omega) (by simp; omega)]
    dsimp only
    rw [if_neg (by decide)]
    rw [hwl]
    simp only [Header.long_wire, Header.cil_byte, Header.token_tail, long_type_code]
    simp [List.append_assoc, List.drop_drop, be32]
    refine ⟨?_, by omega⟩
    by_cases hd : dc = [] <;> by_cases hs : sc = [] <;>
      simp [hcil, hd, hs, List.length_eq_zero]
  case Handshake =>
    have hwl : Header.wire_len ⟨PacketType.Handshake, ver, fl, dc, sc, tok, vers⟩ =
        6 + dc.length + sc.length := by
      simp [Header.wire_len, Header.long_wire, Header.token_tail, be32]
      omega
    rw [hwl] at hlen
    unfold Header.to_bytes
    rw [if_neg (by simp)]
    dsimp only
    set cil := (if dc.length ≠ 0 then (usize_sub dc.length 3 % 256) <<< 4 % 256 else 0) |||
        (if sc.length ≠ 0 then usize_sub sc.length 3 % 256 &&& 15 else 0) with hcil
    rw [put_u8_step [] d (FORM_BIT ||| 125) (by simp) (by simp) (by omega)]
    dsimp only
    rw [put_u32_step [FORM_BIT ||| 125] (d.drop 1) ver (by simp) (by simp)
        (by simp; omega)]
    dsimp only
    rw [put_u8_step ([FORM_BIT ||| 125] ++ be32 ver) ((d.drop 1).drop 4) cil
        (by simp) (by simp [be32]) (by simp; omega)]
    dsimp only
    rw [put_bytes_step (([FORM_BIT ||| 125] ++ be32 ver) ++ [cil])
        (((d.drop 1).drop 4).drop 1) dc
        (by simp [List.append_assoc]) (by simp [be32]) (by simp; omega)]
    dsimp only
    rw [put_bytes_step ((([FORM_BIT ||| 125] ++ be32 ver) ++ [cil]) ++ dc)
        ((((d.drop 1).drop 4).drop 1).drop dc.length) sc
        (by simp [List.append_assoc]) (by simp [be32]; omega) (by simp; omega)]
    dsimp only
    rw [if_neg (by decide)]
    rw [hwl]
    simp only [Header.long_wire, Header.cil_byte, Header.token_tail, long_type_code]
    simp [List.append_assoc, List.drop_drop, be32]
    refine ⟨?_, by omega⟩
    by_cases hd : dc = [] <;> by_cases hs : sc = [] <;>
      simp [hcil, hd, hs, List.length_eq_zero]
  case ZeroRTT =>
    have hwl : Header.wire_len ⟨PacketType.ZeroRTT, ver, fl, dc, sc, tok, vers⟩ =
        6 + dc.length + sc.length := by
      simp [Header.wire_len, Header.long_wire, Header.token_tail, be32]
      omega
    rw [hwl] at hlen
    unfold Header.to_bytes
    rw [if_neg (by simp)]
    dsimp only
    set cil := (if dc.length ≠ 0 then (usize_sub dc.length 3 % 256) <<< 4 % 256 else 0) |||
        (if sc.length ≠ 0 then usize_sub sc.length 3 % 256 &&& 15 else 0) with hcil
    rw [put_u8_step [] d (FORM_BIT ||| 124) (by simp) (by simp) (by omega)]
    dsimp only
    rw [put_u32_step [FORM_BIT ||| 124] (d.drop 1) ver (by simp) (by simp)
        (by simp; omega)]
    dsimp only
    rw [put_u8_step ([FORM_BIT ||| 124] ++ be32 ver) ((d.drop 1).drop 4) cil
        (by simp) (by simp [be32]) (by simp; omega)]
    dsimp only
    rw [put_bytes_step (([FORM_BIT ||| 124] ++ be32 ver) ++ [cil])
        (((d.drop 1).drop 4).drop 1) dc
        (by simp [List.append_assoc]) (by simp [be32]) (by simp; omega)]
    dsimp only
    rw [put_bytes_step ((([FORM_BIT ||| 124] ++ be32 ver) ++ [cil]) ++ dc)
        ((((d.drop 1).drop 4).drop 1).drop dc.length) sc
        (by simp [List.append_assoc]) (by simp [be32]; omega) (by simp; omega)]
    dsimp only
    rw [if_neg (by decide)]
    rw [hwl]
    simp only [Header.long_wire, Header.cil_byte, Header.token_tail, long_type_code]
    simp [List.append_assoc, List.drop_drop, be32]
    refine ⟨?_, by omega⟩
    by_cases hd : dc = [] <;> by_cases hs : sc = [] <;>
      simp [hcil, hd, hs, List.length_eq_zero]
  case VersionNegotiation =>
    exact absurd rfl hty.1
  case Application =>
    exact absurd rfl hty.2

lemma get_bytes_step {b : Bytes} (w v rest : List Nat) (n : Nat) (hn : v.length = n)
    (hdata : b.data = w ++ (v ++ rest)) (hoff : b.off = w.length) :
    Bytes.get_bytes n b = .ok (v, ⟨w ++ (v ++ rest), w.length + n⟩) := by
  obtain ⟨data, off⟩ := b
  simp only at hdata hoff
  subst hdata hoff hn
  unfold Bytes.get_bytes
  rw [if_pos (by simp)]
  rw [List.drop_left, List.take_left]

lemma get_u8_step {b : Bytes} (w : List Nat) (x : Nat) (rest : List Nat)
    (hdata : b.data = w ++ (x :: rest)) (hoff : b.off = w.length) :
    Bytes.get_u8 b = .ok (x, ⟨w ++ (x :: rest), w.length + 1⟩) := by
  unfold Bytes.get_u8
  rw [get_bytes_step w [x] rest 1 rfl (by simpa using hdata) hoff]
  simp

lemma get_u32_step {b : Bytes} (w : List Nat) (v : Nat) (rest : List Nat) (hv : v < 2 ^ 32)
    (hdata : b.data = w ++ (be32 v ++ rest)) (hoff : b.off = w.length) :
    Bytes.get_u32 b = .ok (v, ⟨w ++ (be32 v ++ rest), w.length + 4⟩) := by
  unfold Bytes.get_u32
  rw [get_bytes_step w (be32 v) rest 4 (by simp [be32]) hdata hoff]
  dsimp only
  congr 2
  simp only [be32, List.getD_cons_zero, List.getD_cons_succ]
  rw [Nat.shiftRight_eq_div_pow, Nat.shiftRight_eq_div_pow, Nat.shiftRight_eq_div_pow]
  norm_num
  omega

lemma get_token_zero_step {b : Bytes} (w rest : List Nat)
    (hdata : b.data = w ++ (0 :: rest)) (hoff : b.off = w.length) :
    Bytes.get_bytes_with_varint_length b = .ok ([], ⟨w ++ (0 :: rest), w.length + 1⟩) := by
  unfold Bytes.get_bytes_with_varint_length Bytes.get_varint
  rw [get_u8_step w 0 rest hdata hoff]
  dsimp only
  rw [show (1 <<< ((0 : Nat) >>> 6) - 1 : Nat) = 0 from by decide]
  have hgb : Bytes.get_bytes 0 ⟨w ++ 0 :: rest, w.length + 1⟩ =
      .ok ([], ⟨w ++ 0 :: rest, w.length + 1⟩) := by
    unfold Bytes.get_bytes
    rw [if_pos (by simp)]
    simp
  rw [hgb]
  dsimp only [List.foldl]
  rw [show ((0 : Nat) &&& 63) = 0 from by decide]
  rw [hgb]

lemma usize_sub_small (a b : Nat) (hb : b ≤ a) (ha : a < 2 ^ 64) (hb64 : b < 2 ^ 64) :
    usize_sub a b = a - b := by
  unfold usize_sub
  omega

lemma cil_byte_split (hdr : Header)
    (hdc : hdr.dcid.length = 0 ∨ (4 ≤ hdr.dcid.length ∧ hdr.dcid.length ≤ 18))
    (hsc : hdr.scid.length = 0 ∨ (4 ≤ hdr.scid.length ∧ hdr.scid.length ≤ 18)) :
    hdr.cil_byte = 16 * (if hdr.dcid.length = 0 then 0 else hdr.dcid.length - 3) +
      (if hdr.scid.length = 0 then 0 else hdr.scid.length - 3) := by
  have ha : (if hdr.dcid.length ≠ 0 then (usize_sub hdr.dcid.length 3 % 256) <<< 4 % 256 else 0) =
      16 * (if hdr.dcid.length = 0 then 0 else hdr.dcid.length - 3) := by
    rcases hdc with h | ⟨h4, h18⟩
    · rw [if_neg (by omega), if_pos h]
    · rw [if_pos (by omega), if_neg (by omega)]
      rw [usize_sub_small _ _ (by omega) (by omega) (by omega)]
      rw [Nat.shiftLeft_eq]
      omega
  have hb : (if hdr.scid.length ≠ 0 then usize_sub hdr.scid.length 3 % 256 &&& 15 else 0) =
      (if hdr.scid.length = 0 then 0 else hdr.scid.length - 3) := by
    rcases hsc with h | ⟨h4, h18⟩
    · rw [if_neg (by omega), if_pos h]
    · rw [if_pos (by omega), if_neg (by omega)]
      rw [usize_sub_small _ _ (by omega) (by omega) (by omega)]
      rw [show (15 : Nat) = 2 ^ 4 - 1 from by norm_num, Nat.and_pow_two_sub_one_eq_mod]
      omega
  have hsn15 : (if hdr.scid.length = 0 then 0 else hdr.scid.length - 3) < 2 ^ 4 := by
    rcases hsc with h | ⟨h4, h18⟩
    · rw [if_pos h]
      norm_num
    · rw [if_neg (by omega)]
      omega
  unfold Header.cil_byte
  rw [ha, hb]
  rw [show (16 : Nat) * (if hdr.dcid.length = 0 then 0 else hdr.dcid.length - 3) =
      2 ^ 4 * (if hdr.dcid.length = 0 then 0 else hdr.dcid.length - 3) from by norm_num]
  rw [← Nat.mul_add_lt_is_or hsn15 _]

lemma cil_byte_nibbles (hdr : Header)
    (hdc : hdr.dcid.length = 0 ∨ (4 ≤ hdr.dcid.length ∧ hdr.dcid.length ≤ 18))
    (hsc : hdr.scid.length = 0 ∨ (4 ≤ hdr.scid.length ∧ hdr.scid.length ≤ 18)) :
    hdr.cil_byte >>> 4 = (if hdr.dcid.length = 0 then 0 else hdr.dcid.length - 3) ∧
    hdr.cil_byte &&& 15 = (if hdr.scid.length = 0 then 0 else hdr.scid.length - 3) := by
  rw [cil_byte_split hdr hdc hsc]
  have hdn15 : (if hdr.dcid.length = 0 then 0 else hdr.dcid.length - 3) ≤ 15 := by
    rcases hdc with h | ⟨h4, h18⟩
    · rw [if_pos h]
      omega
    · rw [if_neg (by omega)]
      omega
  have hsn15 : (if hdr.scid.length = 0 then 0 else hdr.scid.length - 3) ≤ 15 := by
    rcases hsc with h | ⟨h4, h18⟩
    · rw [if_pos h]
      omega
    · rw [if_neg (by omega)]
      omega
  constructor
  · rw [Nat.shiftRight_eq_div_pow, show (2 : Nat) ^ 4 = 16 from by norm_num]
    omega
  · rw [show (15 : Nat) = 2 ^ 4 - 1 from by norm_num, Nat.and_pow_two_sub_one_eq_mod,
        show (2 : Nat) ^ 4 = 16 from by norm_num]
    omega

/-- C3 (amended): for any long-form Header of type Initial, Handshake or
ZeroRTT with nonzero version below `2^32`, CID lengths each 0 or in [4,18],
and (for Initial) no token, `to_bytes` followed by `from_bytes` with matching
`dcil` yields a Header with equal type, version, dcid and scid. The token
does not round-trip: an absent token is re-parsed as `some []` (and a present
token is serialized without the varint length prefix `from_bytes` expects);
the parsed flags retain only the form bit. -/
theorem long_header_roundtrip (hdr : Header) (r : Nat)
    (hty : hdr.ty = PacketType.Initial ∨ hdr.ty = PacketType.Handshake ∨
      hdr.ty = PacketType.ZeroRTT)
    (hver1 : 1 ≤ hdr.version) (hver32 : hdr.version < 2 ^ 32)
    (hdc : hdr.dcid.length = 0 ∨ (4 ≤ hdr.dcid.length ∧ hdr.dcid.length ≤ 18))
    (hsc : hdr.scid.length = 0 ∨ (4 ≤ hdr.scid.length ∧ hdr.scid.length ≤ 18))
    (htok : hdr.ty = PacketType.Initial → hdr.token = none) :
    Header.to_bytes hdr r ⟨List.replicate hdr.wire_len 0, 0⟩ =
      .ok ⟨hdr.long_wire, hdr.wire_len⟩ ∧
    Header.from_bytes ⟨hdr.long_wire, 0⟩ hdr.dcid.length =
      .ok ({ ty := hdr.ty, version := hdr.version, flags := FORM_BIT,
             dcid := hdr.dcid, scid := hdr.scid,
             token := if hdr.ty = PacketType.Initial then some [] else none,
             versions := none }, ⟨hdr.long_wire, hdr.wire_len⟩) := by
  have hty2 : hdr.ty ≠ PacketType.VersionNegotiation ∧ hdr.ty ≠ PacketType.Application := by
    rcases hty with h | h | h <;> rw [h] <;> exact ⟨by decide, by decide⟩
  constructor
  · rw [to_bytes_long_eq hdr r _ hty2 (by simp)]
    rw [List.drop_eq_nil_of_le (by simp)]
    simp
  · rcases hty with htyh | htyh | htyh
    · -- Initial
      have htokn : hdr.token = none := htok htyh
      have htt : hdr.token_tail = [0] := by simp [Header.token_tail, htyh, htokn]
      have hwl : hdr.wire_len = 6 + hdr.dcid.length + hdr.scid.length + 1 := by
        simp [Header.wire_len, Header.long_wire, be32, htt]
        omega
      obtain ⟨hn1, hn2⟩ := cil_byte_nibbles hdr hdc hsc
      have hlw : hdr.long_wire =
          (FORM_BIT ||| 127) :: (be32 hdr.version ++ (hdr.cil_byte :: (hdr.dcid ++ (hdr.scid ++ [0])))) := by
        simp [Header.long_wire, long_type_code, htyh, htt]
      rw [if_pos htyh]
      rw [hlw]
      unfold Header.from_bytes
      rw [get_u8_step [] (FORM_BIT ||| 127)
          (be32 hdr.version ++ (hdr.cil_byte :: (hdr.dcid ++ (hdr.scid ++ [0])))) (by simp) (by simp)]
      dsimp only
      rw [if_neg (by decide)]
      rw [get_u32_step [FORM_BIT ||| 127] hdr.version
          (hdr.cil_byte :: (hdr.dcid ++ (hdr.scid ++ [0]))) hver32 (by simp) (by simp)]
      dsimp only
      rw [if_neg (by omega)]
      rw [show ((FORM_BIT ||| 127) &&& TYPE_MASK : Nat) = 127 from by decide]
      dsimp only
      rw [get_u8_step ([FORM_BIT ||| 127] ++ be32 hdr.version) hdr.cil_byte
          (hdr.dcid ++ (hdr.scid ++ [0])) (by simp [List.append_assoc]) (by simp [be32])]
      dsimp only
      rw [hn1, hn2]
      have hdn15 : (if hdr.dcid.length = 0 then 0 else hdr.dcid.length - 3) ≤ 15 := by
        rcases hdc with h | ⟨h4, h18⟩
        · rw [if_pos h]
          omega
        · rw [if_neg (by omega)]
          omega
      have hsn15 : (if hdr.scid.length = 0 then 0 else hdr.scid.length - 3) ≤ 15 := by
        rcases hsc with h | ⟨h4, h18⟩
        · rw [if_pos h]
          omega
        · rw [if_neg (by omega)]
          omega
      have hno : ¬ (MAX_CID_LEN < (if hdr.dcid.length = 0 then 0 else hdr.dcid.length - 3) ∨
          MAX_CID_LEN < (if hdr.scid.length = 0 then 0 else hdr.scid.length - 3)) := by
        unfold MAX_CID_LEN
        omega
      rw [if_neg hno]
      have hd1 : (if 0 < (if hdr.dcid.length = 0 then 0 else hdr.dcid.length - 3) then
          (if hdr.dcid.length = 0 then 0 else hdr.dcid.length - 3) + 3
          else (if hdr.dcid.length = 0 then 0 else hdr.dcid.length - 3)) = hdr.dcid.length := by
        rcases hdc with h | ⟨h4, h18⟩
        · simp [h]
        · rw [if_neg (show ¬ hdr.dcid.length = 0 from by omega)]
          rw [if_pos (show 0 < hdr.dcid.length - 3 from by omega)]
          omega
      have hs1 : (if 0 < (if hdr.scid.length = 0 then 0 else hdr.scid.length - 3) then
          (if hdr.scid.length = 0 then 0 else hdr.scid.length - 3) + 3
          else (if hdr.scid.length = 0 then 0 else hdr.scid.length - 3)) = hdr.scid.length := by
        rcases hsc with h | ⟨h4, h18⟩
        · simp [h]
        · rw [if_neg (show ¬ hdr.scid.length = 0 from by omega)]
          rw [if_pos (show 0 < hdr.scid.length - 3 from by omega)]
          omega
      rw [hd1, hs1]
      rw [get_bytes_step (([FORM_BIT ||| 127] ++ be32 hdr.version) ++ [hdr.cil_byte]) hdr.dcid
          (hdr.scid ++ [0]) hdr.dcid.length rfl (by simp [List.append_assoc]) (by simp [be32])]
      dsimp only
      rw [get_bytes_step ((([FORM_BIT ||| 127] ++ be32 hdr.version) ++ [hdr.cil_byte]) ++ hdr.dcid)
          hdr.scid [0] hdr.scid.length rfl (by simp [List.append_assoc]) (by simp [be32]; omega)]
      dsimp only
      rw [get_token_zero_step ((((([FORM_BIT ||| 127] ++ be32 hdr.version) ++ [hdr.cil_byte]) ++ hdr.dcid) ++ hdr.scid))
          [] (by simp [List.append_assoc]) (by simp [be32]; omega)]
      dsimp only
      rw [show ((FORM_BIT ||| 127) &&& FORM_BIT : Nat) = FORM_BIT from by decide]
      rw [hwl]
      simp [List.append_assoc, be32]
      exact ⟨htyh.symm, by omega⟩
    · -- Handshake
      have htt : hdr.token_tail = [] := by simp [Header.token_tail, htyh]
      have hwl : hdr.wire_len = 6 + hdr.dcid.length + hdr.scid.length := by
        simp [Header.wire_len, Header.long_wire, be32, htt]
        omega
      obtain ⟨hn1, hn2⟩ := cil_byte_nibbles hdr hdc hsc
      have hlw : hdr.long_wire =
          (FORM_BIT ||| 125) :: (be32 hdr.version ++ (hdr.cil_byte :: (hdr.dcid ++ (hdr.scid ++ [])))) := by
        simp [Header.long_wire, long_type_code, htyh, htt]
      rw [if_neg (show ¬ hdr.ty = PacketType.Initial from by rw [htyh]; decide)]
      rw [hlw]
      unfold Header.from_bytes
      rw [get_u8_step [] (FORM_BIT ||| 125)
          (be32 hdr.version ++ (hdr.cil_byte :: (hdr.dcid ++ (hdr.scid ++ [])))) (by simp) (by simp)]
      dsimp only
      rw [if_neg (by decide)]
      rw [get_u32_step [FORM_BIT ||| 125] hdr.version
          (hdr.cil_byte :: (hdr.dcid ++ (hdr.scid ++ []))) hver32 (by simp) (by simp)]
      dsimp only
      rw [if_neg (by omega)]
      rw [show ((FORM_BIT ||| 125) &&& TYPE_MASK : Nat) = 125 from by decide]
      dsimp only
      rw [get_u8_step ([FORM_BIT ||| 125] ++ be32 hdr.version) hdr.cil_byte
          (hdr.dcid ++ (hdr.scid ++ [])) (by simp [List.append_assoc]) (by simp [be32])]
      dsimp only
      rw [hn1, hn2]
      have hdn15 : (if hdr.dcid.length = 0 then 0 else hdr.dcid.length - 3) ≤ 15 := by
        rcases hdc with h | ⟨h4, h18⟩
        · rw [if_pos h]
          omega
        · rw [if_neg (by omega)]
          omega
      have hsn15 : (if hdr.scid.length = 0 then 0 else hdr.scid.length - 3) ≤ 15 := by
        rcases hsc with h | ⟨h4, h18⟩
        · rw [if_pos h]
          omega
        · rw [if_neg (by omega)]
          omega
      have hno : ¬ (MAX_CID_LEN < (if hdr.dcid.length = 0 then 0 else hdr.dcid.length - 3) ∨
          MAX_CID_LEN < (if hdr.scid.length = 0 then 0 else hdr.scid.length - 3)) := by
        unfold MAX_CID_LEN
        omega
      rw [if_neg hno]
      have hd1 : (if 0 < (if hdr.dcid.length = 0 then 0 else hdr.dcid.length - 3) then
          (if hdr.dcid.length = 0 then 0 else hdr.dcid.length - 3) + 3
          else (if hdr.dcid.length = 0 then 0 else hdr.dcid.length - 3)) = hdr.dcid.length := by
        rcases hdc with h | ⟨h4, h18⟩
        · simp [h]
        · rw [if_neg (show ¬ hdr.dcid.length = 0 from by omega)]
          rw [if_pos (show 0 < hdr.dcid.length - 3 from by omega)]
          omega
      have hs1 : (if 0 < (if hdr.scid.length = 0 then 0 else hdr.scid.length - 3) then
          (if hdr.scid.length = 0 then 0 else hdr.scid.length - 3) + 3
          else (if hdr.scid.length = 0 then 0 else hdr.scid.length - 3)) = hdr.scid.length := by
        rcases hsc with h | ⟨h4, h18⟩
        · simp [h]
        · rw [if_neg (show ¬ hdr.scid.length = 0 from by omega)]
          rw [if_pos (show 0 < hdr.scid.length - 3 from by omega)]
          omega
      rw [hd1, hs1]
      rw [get_bytes_step (([FORM_BIT ||| 125] ++ be32 hdr.version) ++ [hdr.cil_byte]) hdr.dcid
          (hdr.scid ++ []) hdr.dcid.length rfl (by simp [List.append_assoc]) (by simp [be32])]
      dsimp only
      rw [get_bytes_step ((([FORM_BIT ||| 125] ++ be32 hdr.version) ++ [hdr.cil_byte]) ++ hdr.dcid)
          hdr.scid [] hdr.scid.length rfl (by simp [List.append_assoc]) (by simp [be32]; omega)]
      dsimp only

      rw [show ((FORM_BIT ||| 125) &&& FORM_BIT : Nat) = FORM_BIT from by decide]
      rw [hwl]
      simp [List.append_assoc, be32]
      exact ⟨htyh.symm, by omega⟩
    · -- ZeroRTT
      have htt : hdr.token_tail = [] := by simp [Header.token_tail, htyh]
      have hwl : hdr.wire_len = 6 + hdr.dcid.length + hdr.scid.length := by
        simp [Header.wire_len, Header.long_wire, be32, htt]
        omega
      obtain ⟨hn1, hn2⟩ := cil_byte_nibbles hdr hdc hsc
      have hlw : hdr.long_wire =
          (FORM_BIT ||| 124) :: (be32 hdr.version ++ (hdr.cil_byte :: (hdr.dcid ++ (hdr.scid ++ [])))) := by
        simp [Header.long_wire, long_type_code, htyh, htt]
      rw [if_neg (show ¬ hdr.ty = PacketType.Initial from by rw [htyh]; decide)]
      rw [hlw]
      unfold Header.from_bytes
      rw [get_u8_step [] (FORM_BIT ||| 124)
          (be32 hdr.version ++ (hdr.cil_byte :: (hdr.dcid ++ (hdr.scid ++ [])))) (by simp) (by simp)]
      dsimp only
      rw [if_neg (by decide)]
      rw [get_u32_step [FORM_BIT ||| 124] hdr.version
          (hdr.cil_byte :: (hdr.dcid ++ (hdr.scid ++ []))) hver32 (by simp) (by simp)]
      dsimp only
      rw [if_neg (by omega)]
      rw [show ((FORM_BIT ||| 124) &&& TYPE_MASK : Nat) = 124 from by decide]
      dsimp only
      rw [get_u8_step ([FORM_BIT ||| 124] ++ be32 hdr.version) hdr.cil_byte
          (hdr.dcid ++ (hdr.scid ++ [])) (by simp [List.append_assoc]) (by simp [be32])]
      dsimp only
      rw [hn1, hn2]
      have hdn15 : (if hdr.dcid.length = 0 then 0 else hdr.dcid.length - 3) ≤ 15 := by
        rcases hdc with h | ⟨h4, h18⟩
        · rw [if_pos h]
          omega
        · rw [if_neg (by omega)]
          omega
      have hsn15 : (if hdr.scid.length = 0 then 0 else hdr.scid.length - 3) ≤ 15 := by
        rcases hsc with h | ⟨h4, h18⟩
        · rw [if_pos h]
          omega
        · rw [if_neg (by omega)]
          omega
      have hno : ¬ (MAX_CID_LEN < (if hdr.dcid.length = 0 then 0 else hdr.dcid.length - 3) ∨
          MAX_CID_LEN < (if hdr.scid.length = 0 then 0 else hdr.scid.length - 3)) := by
        unfold MAX_CID_LEN
        omega
      rw [if_neg hno]
      have hd1 : (if 0 < (if hdr.dcid.length = 0 then 0 else hdr.dcid.length - 3) then
          (if hdr.dcid.length = 0 then 0 else hdr.dcid.length - 3) + 3
          else (if hdr.dcid.length = 0 then 0 else hdr.dcid.length - 3)) = hdr.dcid.length := by
        rcases hdc with h | ⟨h4, h18⟩
        · simp [h]
        · rw [if_neg (show ¬ hdr.dcid.length = 0 from by omega)]
          rw [if_pos (show 0 < hdr.dcid.length - 3 from by omega)]
          omega
      have hs1 : (if 0 < (if hdr.scid.length = 0 then 0 else hdr.scid.length - 3) then
          (if hdr.scid.length = 0 then 0 else hdr.scid.length - 3) + 3
          else (if hdr.scid.length = 0 then 0 else hdr.scid.length - 3)) = hdr.scid.length := by
        rcases hsc with h | ⟨h4, h18⟩
        · simp [h]
        · rw [if_neg (show ¬ hdr.scid.length = 0 from by omega)]
          rw [if_pos (show 0 < hdr.scid.length - 3 from by omega)]
          omega
      rw [hd1, hs1]
      rw [get_bytes_step (([FORM_BIT ||| 124] ++ be32 hdr.version) ++ [hdr.cil_byte]) hdr.dcid
          (hdr.scid ++ []) hdr.dcid.length rfl (by simp [List.append_assoc]) (by simp [be32])]
      dsimp only
      rw [get_bytes_step ((([FORM_BIT ||| 124] ++ be32 hdr.version) ++ [hdr.cil_byte]) ++ hdr.dcid)
          hdr.scid [] hdr.scid.length rfl (by simp [List.append_assoc]) (by simp [be32]; omega)]
      dsimp only

      rw [show ((FORM_BIT ||| 124) &&& FORM_BIT : Nat) = FORM_BIT from by decide]
      rw [hwl]
      simp [List.append_assoc, be32]
      exact ⟨htyh.symm, by omega⟩

theorem long_header_roundtrip_witness :
    Header.to_bytes ⟨PacketType.Handshake, 1, 0, [1, 2, 3, 4], [], none, none⟩ 0
        ⟨List.replicate (Header.wire_len ⟨PacketType.Handshake, 1, 0, [1, 2, 3, 4], [], none, none⟩) 0, 0⟩ =
      .ok ⟨Header.long_wire ⟨PacketType.Handshake, 1, 0, [1, 2, 3, 4], [], none, none⟩,
           Header.wire_len ⟨PacketType.Handshake, 1, 0, [1, 2, 3, 4], [], none, none⟩⟩ ∧
    Header.from_bytes ⟨Header.long_wire ⟨PacketType.Handshake, 1, 0, [1, 2, 3, 4], [], none, none⟩, 0⟩ 4 =
      .ok (⟨PacketType.Handshake, 1, FORM_BIT, [1, 2, 3, 4], [], none, none⟩,
           ⟨Header.long_wire ⟨PacketType.Handshake, 1, 0, [1, 2, 3, 4], [], none, none⟩,
            Header.wire_len ⟨PacketType.Handshake, 1, 0, [1, 2, 3, 4], [], none, none⟩⟩) :=
  long_header_roundtrip ⟨PacketType.Handshake, 1, 0, [1, 2, 3, 4], [], none, none⟩ 0
    (Or.inr (Or.inl rfl)) (by decide) (by decide) (by decide) (by decide)
    (fun h => nomatch h)

/-- C3 (counterexample to the claim as stated): a minimal Initial header with
token `none` serializes and re-parses with token `some []`, so the parsed
token is not equal to the original. -/
theorem initial_token_not_roundtripped :
    Header.to_bytes ⟨PacketType.Initial, 1, 0, [], [], none, none⟩ 0
        ⟨List.replicate 7 0, 0⟩ = .ok ⟨[255, 0, 0, 0, 1, 0, 0], 7⟩ ∧
    Header.from_bytes ⟨[255, 0, 0, 0, 1, 0, 0], 0⟩ 0 =
      .ok (⟨PacketType.Initial, 1, 128, [], [], some [], none⟩,
           ⟨[255, 0, 0, 0, 1, 0, 0], 7⟩) ∧
    some ([] : List Nat) ≠ (none : Option (List Nat)) := by
  decide

/-- C9: `to_bytes` enforces no connection-ID length cap on encode: for every
long-form header of a sendable type and any dcid/scid whatsoever, given room
in the output buffer, serialization succeeds — it never returns
`InvalidPacket` because a CID length exceeds 18 or is otherwise outside
{0}∪[4,18]; the 18-byte cap lives only in `from_bytes`'s nibble decoding. -/
theorem to_bytes_no_cid_cap_on_encode (hdr : Header) (r : Nat) (d : List Nat)
    (hty : hdr.ty ≠ PacketType.VersionNegotiation ∧ hdr.ty ≠ PacketType.Application)
    (hlen : hdr.wire_len ≤ d.length) :
    Header.to_bytes hdr r ⟨d, 0⟩ ≠ .error Error.InvalidPacket := by
  rw [to_bytes_long_eq hdr r d hty hlen]
  simp

theorem to_bytes_no_cid_cap_on_encode_witness :
    Header.to_bytes ⟨PacketType.Handshake, 1, 0, List.replicate 25 1, [], none, none⟩ 0
      ⟨List.replicate 31 0, 0⟩ ≠ .error Error.InvalidPacket :=
  to_bytes_no_cid_cap_on_encode ⟨PacketType.Handshake, 1, 0, List.replicate 25 1, [], none, none⟩
    0 (List.replicate 31 0) ⟨by decide, by decide⟩ (by decide)

lemma get_bytes_ok_len {n : Nat} {b b' : Bytes} {l : List Nat}
    (h : Bytes.get_bytes n b = .ok (l, b')) : l.length = n := by
  unfold Bytes.get_bytes at h
  split at h
  · rename_i hle
    simp only [Except.ok.injEq, Prod.mk.injEq] at h
    rw [← h.1]
    simp
    omega
  · exact absurd h (by simp)

lemma get_u8_ok_mem {b b' : Bytes} {x : Nat}
    (h : Bytes.get_u8 b = .ok (x, b')) : x ∈ b.data := by
  unfold Bytes.get_u8 at h
  split at h
  · exact absurd h (by simp)
  · rename_i l b2 hgb
    have hlen := get_bytes_ok_len hgb
    simp only [Except.ok.injEq, Prod.mk.injEq] at h
    unfold Bytes.get_bytes at hgb
    split at hgb
    · simp only [Except.ok.injEq, Prod.mk.injEq] at hgb
      rcases l with _ | ⟨a, t⟩
      · simp at hlen
      · rw [← h.1]
        simp only [List.headD_cons]
        have : a ∈ (b.data.drop b.off).take 1 := by
          rw [hgb.1]
          exact List.mem_cons_self _ _
        exact List.mem_of_mem_drop (List.mem_of_mem_take this)
    · exact absurd hgb (by simp)

lemma get_bytes_ok_data {n : Nat} {b b' : Bytes} {l : List Nat}
    (h : Bytes.get_bytes n b = .ok (l, b')) : b'.data = b.data := by
  unfold Bytes.get_bytes at h
  split at h
  · simp only [Except.ok.injEq, Prod.mk.injEq] at h
    rw [← h.2]
  · exact absurd h (by simp)

lemma get_u8_ok_data {b b' : Bytes} {x : Nat}
    (h : Bytes.get_u8 b = .ok (x, b')) : b'.data = b.data := by
  unfold Bytes.get_u8 at h
  split at h
  · exact absurd h (by simp)
  · rename_i l b2 hgb
    simp only [Except.ok.injEq, Prod.mk.injEq] at h
    rw [← h.2]
    exact get_bytes_ok_data hgb

lemma get_u32_ok_data {b b' : Bytes} {x : Nat}
    (h : Bytes.get_u32 b = .ok (x, b')) : b'.data = b.data := by
  unfold Bytes.get_u32 at h
  split at h
  · exact absurd h (by simp)
  · rename_i l b2 hgb
    simp only [Except.ok.injEq, Prod.mk.injEq] at h
    rw [← h.2]
    exact get_bytes_ok_data hgb

/-- C5 (amended): every Header successfully parsed through the long-form
path of `from_bytes` (from a buffer of bytes) has dcid and scid lengths each
0 or in [4,18]; the nibble arithmetic makes a wire length over 18
unrepresentable, so the over-cap `InvalidPacket` check never needs to fire.
(A short-form Header's dcid length instead equals the caller-supplied
`dcil`, unconstrained.) -/
theorem from_bytes_long_cid_lengths (b : Bytes) (dcil : Nat) (hdr : Header) (b' : Bytes)
    (hbytes : ∀ x ∈ b.data, x < 256)
    (hok : Header.from_bytes b dcil = .ok (hdr, b'))
    (hlong : hdr.ty ≠ PacketType.Application) :
    (hdr.dcid.length = 0 ∨ (4 ≤ hdr.dcid.length ∧ hdr.dcid.length ≤ 18)) ∧
    (hdr.scid.length = 0 ∨ (4 ≤ hdr.scid.length ∧ hdr.scid.length ≤ 18)) := by
  unfold Header.from_bytes at hok
  split at hok
  · exact absurd hok (by simp)
  · rename_i first b1 hu8
    split at hok
    · -- short header
      split at hok
      · exact absurd hok (by simp)
      · rename_i dcid b2 hgb
        simp only [RustResult.ok.injEq, Prod.mk.injEq] at hok
        rw [← hok.1] at hlong
        exact absurd rfl hlong
    · -- long header
      split at hok
      · exact absurd hok (by simp)
      · rename_i version b2 hu32
        split at hok
        · exact absurd hok (by simp)
        · rename_i ty hty
          split at hok
          · exact absurd hok (by simp)
          · rename_i v b3 hcil
            have hdata2 : b2.data = b.data := by
              rw [get_u32_ok_data hu32, get_u8_ok_data hu8]
            have hv : v < 256 := by
              apply hbytes
              rw [← hdata2]
              exact get_u8_ok_mem hcil
            dsimp only at hok
            split at hok
            · exact absurd hok (by simp)
            · rename_i hcap
              push_neg at hcap
              have hd4 : v >>> 4 ≤ 15 := by
                rw [Nat.shiftRight_eq_div_pow]
                omega
              have hs4 : v &&& 15 ≤ 15 := by
                rw [show (15 : Nat) = 2 ^ 4 - 1 from by norm_num,
                    Nat.and_pow_two_sub_one_eq_mod]
                omega
              split at hok
              · exact absurd hok (by simp)
              · rename_i dcid b4 hgd
                have hdl := get_bytes_ok_len hgd
                split at hok
                · exact absurd hok (by simp)
                · rename_i scid b5 hgs
                  have hsl := get_bytes_ok_len hgs
                  have hgoal : (dcid.length = 0 ∨ (4 ≤ dcid.length ∧ dcid.length ≤ 18)) ∧
                      (scid.length = 0 ∨ (4 ≤ scid.length ∧ scid.length ≤ 18)) := by
                    rw [hdl, hsl]
                    constructor
                    · split <;> omega
                    · split <;> omega
                  split at hok
                  · -- Initial
                    split at hok
                    · exact absurd hok (by simp)
                    · simp only [RustResult.ok.injEq, Prod.mk.injEq] at hok
                      rw [← hok.1]
                      exact hgoal
                  · -- Retry: panicked, contradiction
                    exact absurd hok (by simp)
                  · -- VersionNegotiation
                    split at hok
                    · exact absurd hok (by simp)
                    · simp only [RustResult.ok.injEq, Prod.mk.injEq] at hok
                      rw [← hok.1]
                      exact hgoal
                  · simp only [RustResult.ok.injEq, Prod.mk.injEq] at hok
                    rw [← hok.1]
                    exact hgoal

theorem from_bytes_long_cid_lengths_witness :
    ((4 : Nat) = 0 ∨ (4 ≤ (4 : Nat) ∧ (4 : Nat) ≤ 18)) ∧
    ((5 : Nat) = 0 ∨ (4 ≤ (5 : Nat) ∧ (5 : Nat) ≤ 18)) :=
  from_bytes_long_cid_lengths ⟨[0xfd, 0, 0, 0, 5, 0x12, 1, 2, 3, 4, 9, 9, 9, 9, 9], 0⟩ 4
    ⟨PacketType.Handshake, 5, 128, [1, 2, 3, 4], [9, 9, 9, 9, 9], none, none⟩
    ⟨[0xfd, 0, 0, 0, 5, 0x12, 1, 2, 3, 4, 9, 9, 9, 9, 9], 15⟩
    (by decide) (by decide) (by decide)

/-- C5 (counterexample to the claim as stated): `from_bytes` happily parses
a short header whose caller-supplied `dcil` is 1, yielding a Header whose
dcid length is neither 0 nor in [4,18]. -/
theorem short_header_dcid_uncapped :
    Header.from_bytes ⟨[0x30, 0xaa], 0⟩ 1 =
      .ok (⟨PacketType.Application, 0, 0, [0xaa], [], none, none⟩, ⟨[0x30, 0xaa], 2⟩) ∧
    ¬ (([0xaa] : List Nat).length = 0 ∨
       (4 ≤ ([0xaa] : List Nat).length ∧ ([0xaa] : List Nat).length ≤ 18)) := by
  decide
